import Mathlib

/-!
Shallow embedding of the twelve-et pitch / four-part-harmony library.

Pitch classes and octaves are modelled as natural numbers (the source uses
u8 values; on the documented domain of pitch classes 0..11 and small octave
numbers no u8 overflow or underflow occurs, so Nat arithmetic agrees with
the source exactly).  The f64 frequency field is modelled as a rational
number; it never influences validation.  The fallible constructor is
modelled with Option: a panic constructs nothing, hence none.
-/

namespace TwelveEt

/-- Reference frequency of A4 in Hz. -/
def A_440_FREQUENCY : ℚ := 440

/-- Half steps from the zero reference to A4. -/
def A_440_HALFSTEPS_FROM_0 : ℕ := 45

/-- The literal semitone frequency factor used by the source (the constant
SEMITONE frequency quotient 1.059463094, written out as an exact rational). -/
def semitone_factor : ℚ := 1.059463094

/-- Directed mod-12 distance between two pitch classes, mirroring the u8
implementation of the trait method dist. -/
def dist (a b : ℕ) : ℕ :=
  if b < a then (b + (12 - a)) % 12 else b - a

/-- Absolute difference of two naturals, mirroring u8 abs_diff. -/
def abs_diff (a b : ℕ) : ℕ :=
  if a < b then b - a else a - b

/-- The interval from a up to b is a minor or major third. -/
abbrev is_third (a b : ℕ) : Prop := dist a b = 3 ∨ dist a b = 4

/-- The interval from a up to b is a perfect or diminished fifth. -/
abbrev is_fifth (a b : ℕ) : Prop := dist a b = 7 ∨ dist a b = 6

/-- The interval from a up to b is a major, minor or diminished seventh. -/
abbrev is_seventh (a b : ℕ) : Prop := dist a b = 11 ∨ dist a b = 10 ∨ dist a b = 9

/-- A pitch: frequency, pitch class, octave, and the cached half-step count. -/
structure Pitch where
  frequency : ℚ
  pitch_class : ℕ
  octave : ℕ
  half_steps_from_0 : ℕ
deriving DecidableEq

/-- Number of half steps from zero, given a pitch class and an octave. -/
def compute_half_steps_from_zero (pitch_class octave : ℕ) : ℕ :=
  if 0 < octave then (octave - 1) * 12 + pitch_class else pitch_class

/-- The validated-field constructor for Pitch. -/
def Pitch.new (frequency : ℚ) (pitch_class octave : ℕ) : Pitch :=
  ⟨frequency, pitch_class, octave, compute_half_steps_from_zero pitch_class octave⟩

/-- Equal-tempered frequency of a pitch class and octave, as the source
computes it: 440 times the semitone factor raised to the signed half-step
offset from A4. -/
def compute_frequency (pitch_class octave : ℕ) : ℚ :=
  A_440_FREQUENCY *
    semitone_factor ^ ((compute_half_steps_from_zero pitch_class octave : ℤ) -
      ( A_440_HALFSTEPS_FROM_0 : ℤ))

/-- True octave-aware semitone distance between two (pitch class, octave)
pairs, mirroring compute_semi_tone_dist of the source. -/
def compute_semi_tone_dist (pitch1 pitch2 : ℕ × ℕ) : ℕ :=
  if pitch1.2 = pitch2.2 then
    let hl := if pitch2.1 < pitch1.1 then (pitch1, pitch2) else (pitch2, pitch1)
    dist hl.2.1 hl.1.1
  else
    let hl := if pitch2.2 < pitch1.2 then (pitch1, pitch2) else (pitch2, pitch1)
    (12 * hl.1.2 + hl.1.1) - (12 * hl.2.2 + hl.2.1)

/-- The private range validator of the SATB type, transliterated branch for
branch from the source: each early return false becomes one if layer. -/
def SATB.validate_voice_ranges (soprano alto tenor bass : Pitch) : Bool :=
  if bass.octave < 2 ∨ 4 < bass.octave then false
  else if bass.octave = 2 ∧ bass.pitch_class < 4 then false
  else if bass.octave = 4 ∧ 0 < bass.pitch_class then false
  else if (abs_diff bass.octave tenor.octave = 1 ∧ 7 < dist bass.octave tenor.octave) ∨
      (abs_diff bass.octave tenor.octave = 0 ∧ tenor.pitch_class < bass.pitch_class) then false
  else if tenor.octave < 3 ∨ 4 < tenor.octave then false
  else if tenor.octave = 3 ∧ tenor.pitch_class < 3 then false
  else if tenor.octave = 4 ∧ 6 < tenor.pitch_class then false
  else if 12 < compute_semi_tone_dist (tenor.pitch_class, tenor.octave)
      (alto.pitch_class, alto.octave) ∨
      (abs_diff tenor.octave alto.octave = 0 ∧ alto.pitch_class < tenor.pitch_class) then false
  else if alto.octave < 3 ∨ 5 < alto.octave then false
  else if alto.octave = 3 ∧ alto.pitch_class < 7 then false
  else if alto.octave = 5 ∧ 1 < alto.pitch_class then false
  else if 12 < compute_semi_tone_dist (alto.pitch_class, alto.octave)
      (soprano.pitch_class, soprano.octave) ∨
      (abs_diff alto.octave soprano.octave = 0 ∧ soprano.pitch_class < alto.pitch_class) then false
  else if soprano.octave < 4 ∨ 5 < soprano.octave then false
  else if soprano.octave = 4 ∧ soprano.pitch_class < 2 then false
  else if soprano.octave = 5 ∧ 6 < soprano.pitch_class then false
  else true

/-- Sequential novelty count of distinct pitch classes among the root and
the four voices, in source order bass, tenor, alto, soprano. -/
def distinct_voices (root b t a s : ℕ) : ℕ :=
  1 + (if b ≠ root then 1 else 0)
    + (if t ≠ root ∧ t ≠ b then 1 else 0)
    + (if a ≠ root ∧ a ≠ t ∧ a ≠ b then 1 else 0)
    + (if s ≠ root ∧ s ≠ a ∧ s ≠ t ∧ s ≠ b then 1 else 0)

/-- The harmonic validator of the SATB type, transliterated from the source. -/
def SATB.validate_harmony (root : ℕ) (soprano alto tenor bass : Pitch) : Bool :=
  if SATB.validate_voice_ranges soprano alto tenor bass = false then false
  else if ¬(soprano.pitch_class = root ∨ alto.pitch_class = root ∨
      tenor.pitch_class = root ∨ bass.pitch_class = root) then false
  else if distinct_voices root bass.pitch_class tenor.pitch_class
      alto.pitch_class soprano.pitch_class = 2 then
    if ¬((soprano.pitch_class = root ∨ is_third root soprano.pitch_class) ∧
        (alto.pitch_class = root ∨ is_third root alto.pitch_class) ∧
        (tenor.pitch_class = root ∨ is_third root tenor.pitch_class) ∧
        (bass.pitch_class = root ∨ is_third root bass.pitch_class)) then false
    else true
  else if distinct_voices root bass.pitch_class tenor.pitch_class
      alto.pitch_class soprano.pitch_class = 3 then
    if bass.pitch_class = root then
      decide ((tenor.pitch_class = root ∧
          ((is_third root alto.pitch_class ∧ is_fifth root soprano.pitch_class) ∨
            (is_third root soprano.pitch_class ∧ is_fifth root alto.pitch_class))) ∨
        (alto.pitch_class = root ∧
          ((is_third root tenor.pitch_class ∧ is_fifth root soprano.pitch_class) ∨
            (is_third root soprano.pitch_class ∧ is_fifth root tenor.pitch_class))) ∨
        (soprano.pitch_class = root ∧
          ((is_third root tenor.pitch_class ∧ is_fifth root alto.pitch_class) ∨
            (is_third root alto.pitch_class ∧ is_fifth root tenor.pitch_class))))
    else if is_third root bass.pitch_class then
      if (is_fifth root soprano.pitch_class ∧ dist root soprano.pitch_class = 6) ∨
          (is_fifth root alto.pitch_class ∧ dist root alto.pitch_class = 6) ∨
          (is_fifth root tenor.pitch_class ∧ dist root tenor.pitch_class = 6) then
        decide (is_third root soprano.pitch_class ∨ is_third root alto.pitch_class ∨
          is_third root tenor.pitch_class)
      else
        decide ((¬is_third root soprano.pitch_class ∧ ¬is_third root alto.pitch_class ∧
            ¬is_third root tenor.pitch_class) ∧
          ((is_fifth root soprano.pitch_class ∨ is_fifth root alto.pitch_class ∨
              is_fifth root tenor.pitch_class) ∧
            (root = soprano.pitch_class ∨ root = alto.pitch_class ∨
              root = tenor.pitch_class)))
    else if is_fifth root bass.pitch_class then
      decide ((is_fifth root soprano.pitch_class ∨ is_fifth root alto.pitch_class ∨
          is_fifth root tenor.pitch_class) ∧
        ((is_third root soprano.pitch_class ∨ is_third root alto.pitch_class ∨
            is_third root tenor.pitch_class) ∧
          (root = soprano.pitch_class ∨ root = alto.pitch_class ∨
            root = tenor.pitch_class)))
    else false
  else if distinct_voices root bass.pitch_class tenor.pitch_class
      alto.pitch_class soprano.pitch_class = 4 then
    decide ((root = bass.pitch_class ∨ root = tenor.pitch_class ∨
        root = alto.pitch_class ∨ root = soprano.pitch_class) ∧
      (is_third root bass.pitch_class ∨ is_third root tenor.pitch_class ∨
        is_third root alto.pitch_class ∨ is_third root soprano.pitch_class) ∧
      (is_fifth root bass.pitch_class ∨ is_fifth root tenor.pitch_class ∨
        is_fifth root alto.pitch_class ∨ is_fifth root soprano.pitch_class) ∧
      (is_seventh root bass.pitch_class ∨ is_seventh root tenor.pitch_class ∨
        is_seventh root alto.pitch_class ∨ is_seventh root soprano.pitch_class))
  else false

/-- The SATB harmony record: four voices, the root, and the set of pitch
classes present among the voices (the HashSet becomes a Finset). -/
structure SATB where
  soprano : Pitch
  alto : Pitch
  tenor : Pitch
  bass : Pitch
  root : ℕ
  pitch_classes : Finset ℕ

/-- The unchecked constructor: always builds the record, inserting the four
voice pitch classes into the set. -/
def SATB.new_unchecked (root : ℕ) (soprano alto tenor bass : Pitch) : SATB :=
  ⟨soprano, alto, tenor, bass, root,
    insert soprano.pitch_class (insert alto.pitch_class
      (insert tenor.pitch_class {bass.pitch_class}))⟩

/-- The validated constructor: the source panics when validation fails, so
the model returns none there and otherwise defers to the unchecked path. -/
def SATB.new (root : ℕ) (soprano alto tenor bass : Pitch) : Option SATB :=
  if SATB.validate_harmony root soprano alto tenor bass = false then none
  else some (SATB.new_unchecked root soprano alto tenor bass)

/-- The synthesizer, parametric in the carrier (instantiating the carrier
with the reals, q with the rational embedding, sinf with Real.sin and pi
with Real.pi yields the mathematical reading of the f64 code): for every
second and every sample index x, the sample is the sum of the four voice
sinusoids at time x divided by the sample frequency. -/
def SATB.sound_wave {α : Type} [DivisionRing α] (q : ℚ → α) (sinf : α → α)
    (pi : α) (h : SATB) (duration sample_freq : ℕ) : List α :=
  (List.replicate duration ((List.range sample_freq).map fun (x : ℕ) =>
    sinf (q h.soprano.frequency * 2 * pi * ((x : α) / (sample_freq : α))) +
    sinf (q h.alto.frequency * 2 * pi * ((x : α) / (sample_freq : α))) +
    sinf (q h.tenor.frequency * 2 * pi * ((x : α) / (sample_freq : α))) +
    sinf (q h.bass.frequency * 2 * pi * ((x : α) / (sample_freq : α))))).flatten

/-- The public free-function range validator over (pitch class, octave)
pairs, transliterated from the source; its adjacent-pair spacing checks
differ from the private method. -/
def validate_voice_ranges (soprano alto tenor bass : ℕ × ℕ) : Bool :=
  if bass.2 < 2 ∨ 4 < bass.2 then false
  else if bass.2 = 2 ∧ bass.1 < 4 then false
  else if bass.2 = 4 ∧ 0 < bass.1 then false
  else if (abs_diff bass.2 tenor.2 = 1 ∧ 7 < dist bass.1 tenor.1) ∨
      (abs_diff bass.2 tenor.2 = 0 ∧ tenor.1 < bass.1) then false
  else if tenor.2 < 3 ∨ 4 < tenor.2 then false
  else if tenor.2 = 3 ∧ tenor.1 < 3 then false
  else if tenor.2 = 4 ∧ 6 < tenor.1 then false
  else if (abs_diff tenor.2 alto.2 = 1 ∧ tenor.1 ≠ alto.1) ∨
      (abs_diff tenor.2 alto.2 = 0 ∧ alto.1 < tenor.1) then false
  else if alto.2 < 3 ∨ 5 < alto.2 then false
  else if alto.2 = 3 ∧ alto.1 < 7 then false
  else if alto.2 = 5 ∧ 1 < alto.1 then false
  else if (abs_diff alto.2 soprano.2 = 1 ∧ alto.1 ≠ soprano.1) ∨
      (abs_diff alto.2 soprano.2 = 0 ∧ soprano.1 < alto.1) then false
  else if soprano.2 < 4 ∨ 5 < soprano.2 then false
  else if soprano.2 = 4 ∧ soprano.1 < 2 then false
  else if soprano.2 = 5 ∧ 6 < soprano.1 then false
  else true

/-- Individual register check of the bass voice: octave window 2..4 with a
pitch-class floor at octave 2 and ceiling at octave 4. -/
abbrev bass_range_ok (b : Pitch) : Prop :=
  ¬(b.octave < 2 ∨ 4 < b.octave) ∧ ¬(b.octave = 2 ∧ b.pitch_class < 4) ∧
    ¬(b.octave = 4 ∧ 0 < b.pitch_class)

/-- Individual register check of the tenor voice. -/
abbrev tenor_range_ok (t : Pitch) : Prop :=
  ¬(t.octave < 3 ∨ 4 < t.octave) ∧ ¬(t.octave = 3 ∧ t.pitch_class < 3) ∧
    ¬(t.octave = 4 ∧ 6 < t.pitch_class)

/-- Individual register check of the alto voice. -/
abbrev alto_range_ok (a : Pitch) : Prop :=
  ¬(a.octave < 3 ∨ 5 < a.octave) ∧ ¬(a.octave = 3 ∧ a.pitch_class < 7) ∧
    ¬(a.octave = 5 ∧ 1 < a.pitch_class)

/-- Individual register check of the soprano voice. -/
abbrev soprano_range_ok (s : Pitch) : Prop :=
  ¬(s.octave < 4 ∨ 5 < s.octave) ∧ ¬(s.octave = 4 ∧ s.pitch_class < 2) ∧
    ¬(s.octave = 5 ∧ 6 < s.pitch_class)

/-- The bass-tenor spacing check of the private range validator. -/
abbrev bass_tenor_ok (b t : Pitch) : Prop :=
  ¬((abs_diff b.octave t.octave = 1 ∧ 7 < dist b.octave t.octave) ∨
    (abs_diff b.octave t.octave = 0 ∧ t.pitch_class < b.pitch_class))

/-- The tenor-alto spacing check of the private range validator. -/
abbrev tenor_alto_ok (t a : Pitch) : Prop :=
  ¬(12 < compute_semi_tone_dist (t.pitch_class, t.octave) (a.pitch_class, a.octave) ∨
    (abs_diff t.octave a.octave = 0 ∧ a.pitch_class < t.pitch_class))

/-- The alto-soprano spacing check of the private range validator. -/
abbrev alto_soprano_ok (a s : Pitch) : Prop :=
  ¬(12 < compute_semi_tone_dist (a.pitch_class, a.octave) (s.pitch_class, s.octave) ∨
    (abs_diff a.octave s.octave = 0 ∧ s.pitch_class < a.pitch_class))

/-- Unfolding step for a guard that early-returns false. -/
theorem if_false_chain (c : Prop) [Decidable c] (rest : Bool) :
    ((if c then false else rest) = true) ↔ (¬c ∧ rest = true) := by
  by_cases h : c <;> simp [h]

/-- Decomposition of the private range validator into the four individual
register checks and the three adjacent spacing checks. -/
theorem validate_voice_ranges_iff (s a t b : Pitch) :
    SATB.validate_voice_ranges s a t b = true ↔
      bass_range_ok b ∧ tenor_range_ok t ∧ alto_range_ok a ∧ soprano_range_ok s ∧
        bass_tenor_ok b t ∧ tenor_alto_ok t a ∧ alto_soprano_ok a s := by
  unfold SATB.validate_voice_ranges
  rw [if_false_chain, if_false_chain, if_false_chain, if_false_chain, if_false_chain,
    if_false_chain, if_false_chain, if_false_chain, if_false_chain, if_false_chain,
    if_false_chain, if_false_chain, if_false_chain, if_false_chain, if_false_chain]
  exact ⟨fun ⟨h1, h2, h3, h4, h5, h6, h7, h8, h9, h10, h11, h12, h13, h14, h15, _⟩ =>
      ⟨⟨h1, h2, h3⟩, ⟨h5, h6, h7⟩, ⟨h9, h10, h11⟩, ⟨h13, h14, h15⟩, h4, h8, h12⟩,
    fun ⟨⟨h1, h2, h3⟩, ⟨h5, h6, h7⟩, ⟨h9, h10, h11⟩, ⟨h13, h14, h15⟩, h4, h8, h12⟩ =>
      ⟨h1, h2, h3, h4, h5, h6, h7, h8, h9, h10, h11, h12, h13, h14, h15, rfl⟩⟩

/-- The mod-12 distance of a pitch class to itself is zero. -/
theorem dist_self (a : ℕ) : dist a a = 0 := by
  simp [dist]

/-- The absolute difference of a natural to itself is zero. -/
theorem abs_diff_self (a : ℕ) : abs_diff a a = 0 := by
  simp [abs_diff]

/-- A pitch class a third above the root differs from the root. -/
theorem is_third_ne {r x : ℕ} (h : is_third r x) : x ≠ r := by
  intro he
  subst he
  simp [is_third, dist] at h

/-- A pitch class a fifth above the root differs from the root. -/
theorem is_fifth_ne {r x : ℕ} (h : is_fifth r x) : x ≠ r := by
  intro he
  subst he
  simp [is_fifth, dist] at h

/-- The third and fifth intervals are disjoint. -/
theorem is_fifth_not_third {r x : ℕ} (h : is_fifth r x) : ¬is_third r x := by
  simp only [is_fifth, is_third] at *
  omega

/-- Pitch class of a freshly constructed pitch. -/
theorem Pitch.new_pitch_class (f : ℚ) (pc oct : ℕ) :
    (Pitch.new f pc oct).pitch_class = pc := rfl

/-- Octave of a freshly constructed pitch. -/
theorem Pitch.new_octave (f : ℚ) (pc oct : ℕ) : (Pitch.new f pc oct).octave = oct := rfl

/-- Same-octave semitone distance of two pitch classes below 12 stays below 12. -/
theorem semi_tone_dist_same_octave_lt {x y o : ℕ} (hx : x < 12) (hy : y < 12) :
    compute_semi_tone_dist (x, o) (y, o) < 12 := by
  have key : ∀ u v : ℕ, u < 12 → v < 12 → dist u v < 12 := by
    intro u v hu hv
    unfold dist
    split_ifs <;> omega
  unfold compute_semi_tone_dist
  split_ifs with h1 h2 h3
  · exact key y x hy hx
  · exact key x y hx hy
  · exact absurd rfl h1
  · exact absurd rfl h1

set_option maxHeartbeats 1000000 in
/-- The sequential novelty counter computes the exact cardinality of the set
of the root and the four voice pitch classes. -/
theorem distinct_voices_eq_card (r b t a s : ℕ) :
    distinct_voices r b t a s = ({r, b, t, a, s} : Finset ℕ).card := by
  have hset : ({r, b, t, a, s} : Finset ℕ) =
      insert s (insert a (insert t (insert b {r}))) := by
    ext x
    simp only [Finset.mem_insert, Finset.mem_singleton]
    tauto
  have step : ∀ (x : ℕ) (u : Finset ℕ),
      (insert x u).card = if x ∈ u then u.card else u.card + 1 := by
    intro x u
    by_cases h : x ∈ u
    · rw [if_pos h, Finset.card_insert_of_mem h]
    · rw [if_neg h, Finset.card_insert_of_not_mem h]
  rw [hset]
  simp only [step, Finset.mem_insert, Finset.mem_singleton, Finset.card_singleton]
  unfold distinct_voices
  split_ifs <;> omega

/-- Reduction of the harmony validator in the two-distinct-classes case. -/
theorem validate_harmony_eq_of_dv2 (root : ℕ) (s a t b : Pitch)
    (hrange : SATB.validate_voice_ranges s a t b = true)
    (hroot : s.pitch_class = root ∨ a.pitch_class = root ∨
      t.pitch_class = root ∨ b.pitch_class = root)
    (hdv : distinct_voices root b.pitch_class t.pitch_class
      a.pitch_class s.pitch_class = 2) :
    SATB.validate_harmony root s a t b =
      (if ¬((s.pitch_class = root ∨ is_third root s.pitch_class) ∧
          (a.pitch_class = root ∨ is_third root a.pitch_class) ∧
          (t.pitch_class = root ∨ is_third root t.pitch_class) ∧
          (b.pitch_class = root ∨ is_third root b.pitch_class)) then false
        else true) := by
  have hnf : ¬(true = false) := by simp
  unfold SATB.validate_harmony
  rw [hrange, if_neg hnf, if_neg (not_not_intro hroot), hdv, if_pos rfl]

/-- Reduction of the harmony validator in the triad case with the bass on
the root. -/
theorem validate_harmony_eq_of_dv3_root (root : ℕ) (s a t b : Pitch)
    (hrange : SATB.validate_voice_ranges s a t b = true)
    (hroot : s.pitch_class = root ∨ a.pitch_class = root ∨
      t.pitch_class = root ∨ b.pitch_class = root)
    (hdv : distinct_voices root b.pitch_class t.pitch_class
      a.pitch_class s.pitch_class = 3)
    (hb : b.pitch_class = root) :
    SATB.validate_harmony root s a t b =
      decide ((t.pitch_class = root ∧
          ((is_third root a.pitch_class ∧ is_fifth root s.pitch_class) ∨
            (is_third root s.pitch_class ∧ is_fifth root a.pitch_class))) ∨
        (a.pitch_class = root ∧
          ((is_third root t.pitch_class ∧ is_fifth root s.pitch_class) ∨
            (is_third root s.pitch_class ∧ is_fifth root t.pitch_class))) ∨
        (s.pitch_class = root ∧
          ((is_third root t.pitch_class ∧ is_fifth root a.pitch_class) ∨
            (is_third root a.pitch_class ∧ is_fifth root t.pitch_class)))) := by
  have hnf : ¬(true = false) := by simp
  have h32 : ¬((3 : ℕ) = 2) := by omega
  unfold SATB.validate_harmony
  rw [hrange, if_neg hnf, if_neg (not_not_intro hroot), hdv,
    if_neg h32, if_pos rfl, if_pos hb]

/-- Reduction of the harmony validator in the triad case with the bass a
third above the root. -/
theorem validate_harmony_eq_of_dv3_third (root : ℕ) (s a t b : Pitch)
    (hrange : SATB.validate_voice_ranges s a t b = true)
    (hroot : s.pitch_class = root ∨ a.pitch_class = root ∨
      t.pitch_class = root ∨ b.pitch_class = root)
    (hdv : distinct_voices root b.pitch_class t.pitch_class
      a.pitch_class s.pitch_class = 3)
    (hb : ¬(b.pitch_class = root))
    (hthird : is_third root b.pitch_class) :
    SATB.validate_harmony root s a t b =
      (if (is_fifth root s.pitch_class ∧ dist root s.pitch_class = 6) ∨
          (is_fifth root a.pitch_class ∧ dist root a.pitch_class = 6) ∨
          (is_fifth root t.pitch_class ∧ dist root t.pitch_class = 6) then
        decide (is_third root s.pitch_class ∨ is_third root a.pitch_class ∨
          is_third root t.pitch_class)
      else
        decide ((¬is_third root s.pitch_class ∧ ¬is_third root a.pitch_class ∧
            ¬is_third root t.pitch_class) ∧
          ((is_fifth root s.pitch_class ∨ is_fifth root a.pitch_class ∨
              is_fifth root t.pitch_class) ∧
            (root = s.pitch_class ∨ root = a.pitch_class ∨
              root = t.pitch_class)))) := by
  have hnf : ¬(true = false) := by simp
  have h32 : ¬((3 : ℕ) = 2) := by omega
  unfold SATB.validate_harmony
  rw [hrange, if_neg hnf, if_neg (not_not_intro hroot), hdv,
    if_neg h32, if_pos rfl, if_neg hb, if_pos hthird]

/-- Reduction of the harmony validator in the four-distinct-classes case. -/
theorem validate_harmony_eq_of_dv4 (root : ℕ) (s a t b : Pitch)
    (hrange : SATB.validate_voice_ranges s a t b = true)
    (hroot : s.pitch_class = root ∨ a.pitch_class = root ∨
      t.pitch_class = root ∨ b.pitch_class = root)
    (hdv : distinct_voices root b.pitch_class t.pitch_class
      a.pitch_class s.pitch_class = 4) :
    SATB.validate_harmony root s a t b =
      decide ((root = b.pitch_class ∨ root = t.pitch_class ∨
          root = a.pitch_class ∨ root = s.pitch_class) ∧
        (is_third root b.pitch_class ∨ is_third root t.pitch_class ∨
          is_third root a.pitch_class ∨ is_third root s.pitch_class) ∧
        (is_fifth root b.pitch_class ∨ is_fifth root t.pitch_class ∨
          is_fifth root a.pitch_class ∨ is_fifth root s.pitch_class) ∧
        (is_seventh root b.pitch_class ∨ is_seventh root t.pitch_class ∨
          is_seventh root a.pitch_class ∨ is_seventh root s.pitch_class)) := by
  have hnf : ¬(true = false) := by simp
  have h42 : ¬((4 : ℕ) = 2) := by omega
  have h43 : ¬((4 : ℕ) = 3) := by omega
  unfold SATB.validate_harmony
  rw [hrange, if_neg hnf, if_neg (not_not_intro hroot), hdv,
    if_neg h42, if_neg h43, if_pos rfl]

/-- Claim C1, counterexample: four voices that each satisfy their individual
octave window and boundary cutoffs, with bass and tenor octaves differing by
exactly 1 and the mod-12 dist from the bass pitch class to the tenor pitch
class equal to 8, exceeding 7 — yet the private range validator accepts the
harmony, refuting the claimed rejection condition for the bass-tenor pair. -/
theorem claim_C1_counterexample :
    bass_range_ok (Pitch.new 0 4 3) ∧ tenor_range_ok (Pitch.new 0 0 4) ∧
    alto_range_ok (Pitch.new 0 4 4) ∧ soprano_range_ok (Pitch.new 0 7 4) ∧
    abs_diff (Pitch.new 0 4 3).octave (Pitch.new 0 0 4).octave = 1 ∧
    7 < dist (Pitch.new 0 4 3).pitch_class (Pitch.new 0 0 4).pitch_class ∧
    SATB.validate_voice_ranges (Pitch.new 0 7 4) (Pitch.new 0 4 4)
      (Pitch.new 0 0 4) (Pitch.new 0 4 3) = true := by
  decide

/-- Claim C1 (amended): for voices that individually satisfy their octave
ranges and boundary pitch-class cutoffs, the adjacent-voice spacing part of
range validation behaves as follows: when the bass and tenor octaves differ
by exactly 1 (and the other two spacing checks pass), the harmony is
rejected iff the mod-12 dist from the bass OCTAVE to the tenor OCTAVE
exceeds 7; when the tenor and alto octaves (resp. alto and soprano octaves)
differ by exactly 1 (and the other two spacing checks pass), the harmony is
rejected iff the true cross-octave semitone distance between the two voices
exceeds 12. -/
theorem claim_C1 (s a t b : Pitch)
    (h1 : bass_range_ok b) (h2 : tenor_range_ok t) (h3 : alto_range_ok a)
    (h4 : soprano_range_ok s) :
    ((abs_diff b.octave t.octave = 1 ∧ tenor_alto_ok t a ∧ alto_soprano_ok a s) →
      (SATB.validate_voice_ranges s a t b = false ↔ 7 < dist b.octave t.octave)) ∧
    ((abs_diff t.octave a.octave = 1 ∧ bass_tenor_ok b t ∧ alto_soprano_ok a s) →
      (SATB.validate_voice_ranges s a t b = false ↔
        12 < compute_semi_tone_dist (t.pitch_class, t.octave)
          (a.pitch_class, a.octave))) ∧
    ((abs_diff a.octave s.octave = 1 ∧ bass_tenor_ok b t ∧ tenor_alto_ok t a) →
      (SATB.validate_voice_ranges s a t b = false ↔
        12 < compute_semi_tone_dist (a.pitch_class, a.octave)
          (s.pitch_class, s.octave))) := by
  have key : (SATB.validate_voice_ranges s a t b = false) ↔
      ¬(SATB.validate_voice_ranges s a t b = true) := by
    cases hv : SATB.validate_voice_ranges s a t b <;> simp
  refine ⟨fun ⟨habs, hta, has⟩ => ?_, fun ⟨habs, hbt, has⟩ => ?_,
    fun ⟨habs, hbt, hta⟩ => ?_⟩
  · rw [key, validate_voice_ranges_iff]
    constructor
    · intro hn
      by_contra hd
      refine hn ⟨h1, h2, h3, h4, ?_, hta, has⟩
      rintro (⟨hx, hy⟩ | ⟨hx, hy⟩)
      · exact hd hy
      · rw [habs] at hx
        exact absurd hx one_ne_zero
    · intro hd hconj
      exact hconj.2.2.2.2.1 (Or.inl ⟨habs, hd⟩)
  · rw [key, validate_voice_ranges_iff]
    constructor
    · intro hn
      by_contra hd
      refine hn ⟨h1, h2, h3, h4, hbt, ?_, has⟩
      rintro (hx | ⟨hx, hy⟩)
      · exact hd hx
      · rw [habs] at hx
        exact absurd hx one_ne_zero
    · intro hd hconj
      exact hconj.2.2.2.2.2.1 (Or.inl hd)
  · rw [key, validate_voice_ranges_iff]
    constructor
    · intro hn
      by_contra hd
      refine hn ⟨h1, h2, h3, h4, hbt, hta, ?_⟩
      rintro (hx | ⟨hx, hy⟩)
      · exact hd hx
      · rw [habs] at hx
        exact absurd hx one_ne_zero
    · intro hd hconj
      exact hconj.2.2.2.2.2.2 (Or.inl hd)

/-- Witness for claim C1 (amended): a concrete harmony with the bass octave
one above the tenor octave is rejected. -/
theorem claim_C1_witness :
    SATB.validate_voice_ranges (Pitch.new 0 7 4) (Pitch.new 0 7 3)
      (Pitch.new 0 3 3) (Pitch.new 0 0 4) = false :=
  ((claim_C1 (Pitch.new 0 7 4) (Pitch.new 0 7 3) (Pitch.new 0 3 3)
      (Pitch.new 0 0 4) (by decide) (by decide) (by decide) (by decide)).1
    ⟨by decide, by decide, by decide⟩).mpr (by decide)

/-- Claim C9, counterexample: on concrete voices with all pitch classes
below 12 the public free range validator rejects while the private method
accepts, so the two functions are not extensionally equal. -/
theorem claim_C9_counterexample :
    validate_voice_ranges (7, 4) (4, 4) (0, 4) (4, 3) = false ∧
    SATB.validate_voice_ranges (Pitch.new 0 7 4) (Pitch.new 0 4 4)
      (Pitch.new 0 0 4) (Pitch.new 0 4 3) = true := by
  decide

/-- Claim C9 (amended): for four (pitch class, octave) pairs with pitch
classes in 0..12 whose octaves all agree, the public free function
validate_voice_ranges returns the same boolean as the private method
applied to Pitch values built from the same pitch classes and octaves. -/
theorem claim_C9 (sp soc ap aoc tp toc bp boc : ℕ) (fs fa ft fb : ℚ)
    (hsp : sp < 12) (hap : ap < 12) (htp : tp < 12) (hbp : bp < 12)
    (ho1 : soc = aoc) (ho2 : aoc = toc) (ho3 : toc = boc) :
    validate_voice_ranges (sp, soc) (ap, aoc) (tp, toc) (bp, boc) =
      SATB.validate_voice_ranges (Pitch.new fs sp soc) (Pitch.new fa ap aoc)
        (Pitch.new ft tp toc) (Pitch.new fb bp boc) := by
  subst ho3
  subst ho2
  subst ho1
  have habs : abs_diff soc soc = 0 := abs_diff_self soc
  have hta : ¬(12 < compute_semi_tone_dist (tp, soc) (ap, soc)) := by
    have h := semi_tone_dist_same_octave_lt (o := soc) htp hap
    omega
  have has : ¬(12 < compute_semi_tone_dist (ap, soc) (sp, soc)) := by
    have h := semi_tone_dist_same_octave_lt (o := soc) hap hsp
    omega
  unfold validate_voice_ranges SATB.validate_voice_ranges
  simp [Pitch.new_pitch_class, Pitch.new_octave, habs, hta, has]

/-- Witness for claim C9 (amended): a concrete all-octave-4 harmony is
treated identically by the free function and the private method. -/
theorem claim_C9_witness :
    validate_voice_ranges (7, 4) (4, 4) (0, 4) (0, 4) =
      SATB.validate_voice_ranges (Pitch.new 0 7 4) (Pitch.new 0 4 4)
        (Pitch.new 0 0 4) (Pitch.new 0 0 4) :=
  claim_C9 7 4 4 4 0 4 0 4 0 0 0 0 (by decide) (by decide) (by decide)
    (by decide) rfl rfl rfl

/-- Claim C10: octave 0 and octave 1 share half-step counts for every pitch
class, hence compute_frequency gives identical frequencies for the two
octaves, and a constructed Pitch caches the same half_steps_from_0 value in
octave 0 as in octave 1. -/
theorem claim_C10 (pc : ℕ) (f : ℚ) :
    compute_half_steps_from_zero pc 0 = compute_half_steps_from_zero pc 1 ∧
    compute_frequency pc 0 = compute_frequency pc 1 ∧
    (Pitch.new f pc 0).half_steps_from_0 = (Pitch.new f pc 1).half_steps_from_0 := by
  refine ⟨?_, ?_, ?_⟩ <;>
    simp [compute_half_steps_from_zero, compute_frequency, Pitch.new]

/-- Claim C2: for a range-valid harmony containing its root, with exactly
three distinct pitch classes and the bass a third above the root, if some
upper voice sits a tritone (dist exactly 6) above the root the harmony is
legal iff some upper voice doubles the third; otherwise it is legal iff no
upper voice doubles the third, some upper voice equals the root, and some
upper voice is a fifth above the root. -/
theorem claim_C2 (root : ℕ) (s a t b : Pitch)
    (hr : root < 12) (hs : s.pitch_class < 12) (ha : a.pitch_class < 12)
    (ht : t.pitch_class < 12) (hb : b.pitch_class < 12)
    (hrange : SATB.validate_voice_ranges s a t b = true)
    (hroot : s.pitch_class = root ∨ a.pitch_class = root ∨
      t.pitch_class = root ∨ b.pitch_class = root)
    (hcard : ({root, b.pitch_class, t.pitch_class, a.pitch_class,
      s.pitch_class} : Finset ℕ).card = 3)
    (hthird : is_third root b.pitch_class) :
    ((dist root s.pitch_class = 6 ∨ dist root a.pitch_class = 6 ∨
        dist root t.pitch_class = 6) →
      (SATB.validate_harmony root s a t b = true ↔
        (is_third root s.pitch_class ∨ is_third root a.pitch_class ∨
          is_third root t.pitch_class))) ∧
    (¬(dist root s.pitch_class = 6 ∨ dist root a.pitch_class = 6 ∨
        dist root t.pitch_class = 6) →
      (SATB.validate_harmony root s a t b = true ↔
        ((¬is_third root s.pitch_class ∧ ¬is_third root a.pitch_class ∧
            ¬is_third root t.pitch_class) ∧
          (s.pitch_class = root ∨ a.pitch_class = root ∨ t.pitch_class = root) ∧
          (is_fifth root s.pitch_class ∨ is_fifth root a.pitch_class ∨
            is_fifth root t.pitch_class)))) := by
  have hdv : distinct_voices root b.pitch_class t.pitch_class a.pitch_class
      s.pitch_class = 3 := by
    rw [distinct_voices_eq_card]
    exact hcard
  have hbne : ¬(b.pitch_class = root) := fun he => is_third_ne hthird he
  have hred := validate_harmony_eq_of_dv3_third root s a t b hrange hroot hdv
    hbne hthird
  rw [hred]
  constructor
  · intro hd
    have hdcode : (is_fifth root s.pitch_class ∧ dist root s.pitch_class = 6) ∨
        (is_fifth root a.pitch_class ∧ dist root a.pitch_class = 6) ∨
        (is_fifth root t.pitch_class ∧ dist root t.pitch_class = 6) := by
      rcases hd with h | h | h
      · exact Or.inl ⟨Or.inr h, h⟩
      · exact Or.inr (Or.inl ⟨Or.inr h, h⟩)
      · exact Or.inr (Or.inr ⟨Or.inr h, h⟩)
    rw [if_pos hdcode, decide_eq_true_eq]
  · intro hd
    have hdcode : ¬((is_fifth root s.pitch_class ∧ dist root s.pitch_class = 6) ∨
        (is_fifth root a.pitch_class ∧ dist root a.pitch_class = 6) ∨
        (is_fifth root t.pitch_class ∧ dist root t.pitch_class = 6)) := by
      rintro (⟨h1, h2⟩ | ⟨h1, h2⟩ | ⟨h1, h2⟩)
      · exact hd (Or.inl h2)
      · exact hd (Or.inr (Or.inl h2))
      · exact hd (Or.inr (Or.inr h2))
    rw [if_neg hdcode, decide_eq_true_eq]
    constructor
    · rintro ⟨hx, hy, hz⟩
      refine ⟨hx, ?_, hy⟩
      rcases hz with h | h | h
      · exact Or.inl h.symm
      · exact Or.inr (Or.inl h.symm)
      · exact Or.inr (Or.inr h.symm)
    · rintro ⟨hx, hy, hz⟩
      refine ⟨hx, hz, ?_⟩
      rcases hy with h | h | h
      · exact Or.inl h.symm
      · exact Or.inr (Or.inl h.symm)
      · exact Or.inr (Or.inr h.symm)

/-- Witness for claim C2: a concrete first-inversion triad with root
doubled in the upper voices validates as legal. -/
theorem claim_C2_witness :
    SATB.validate_harmony 0 (Pitch.new 0 0 5) (Pitch.new 0 7 4)
      (Pitch.new 0 0 4) (Pitch.new 0 4 3) = true :=
  ((claim_C2 0 (Pitch.new 0 0 5) (Pitch.new 0 7 4) (Pitch.new 0 0 4)
      (Pitch.new 0 4 3) (by decide) (by decide) (by decide) (by decide)
      (by decide) (by decide) (by decide) (by decide) (by decide)).2
    (by decide)).mpr (by decide)

/-- Claim C3: for a range-valid harmony containing its root with exactly
four distinct pitch classes, legality holds iff some voice equals the root,
some voice is a third above it, some voice a fifth above it and some voice
a seventh above it; in particular with no seventh-functioned voice the
harmony is rejected. -/
theorem claim_C3 (root : ℕ) (s a t b : Pitch)
    (hr : root < 12) (hs : s.pitch_class < 12) (ha : a.pitch_class < 12)
    (ht : t.pitch_class < 12) (hb : b.pitch_class < 12)
    (hrange : SATB.validate_voice_ranges s a t b = true)
    (hroot : s.pitch_class = root ∨ a.pitch_class = root ∨
      t.pitch_class = root ∨ b.pitch_class = root)
    (hcard : ({root, b.pitch_class, t.pitch_class, a.pitch_class,
      s.pitch_class} : Finset ℕ).card = 4) :
    (SATB.validate_harmony root s a t b = true ↔
      ((root = b.pitch_class ∨ root = t.pitch_class ∨ root = a.pitch_class ∨
          root = s.pitch_class) ∧
        (is_third root b.pitch_class ∨ is_third root t.pitch_class ∨
          is_third root a.pitch_class ∨ is_third root s.pitch_class) ∧
        (is_fifth root b.pitch_class ∨ is_fifth root t.pitch_class ∨
          is_fifth root a.pitch_class ∨ is_fifth root s.pitch_class) ∧
        (is_seventh root b.pitch_class ∨ is_seventh root t.pitch_class ∨
          is_seventh root a.pitch_class ∨ is_seventh root s.pitch_class))) ∧
    ((¬is_seventh root b.pitch_class ∧ ¬is_seventh root t.pitch_class ∧
        ¬is_seventh root a.pitch_class ∧ ¬is_seventh root s.pitch_class) →
      SATB.validate_harmony root s a t b = false) := by
  have hdv : distinct_voices root b.pitch_class t.pitch_class a.pitch_class
      s.pitch_class = 4 := by
    rw [distinct_voices_eq_card]
    exact hcard
  have hred := validate_harmony_eq_of_dv4 root s a t b hrange hroot hdv
  constructor
  · rw [hred, decide_eq_true_eq]
  · intro hno
    rw [hred, decide_eq_false_iff_not]
    intro hP
    rcases hP.2.2.2 with h | h | h | h
    · exact hno.1 h
    · exact hno.2.1 h
    · exact hno.2.2.1 h
    · exact hno.2.2.2 h

/-- Witness for claim C3: a concrete dominant-seventh-shaped harmony
validates as legal. -/
theorem claim_C3_witness :
    SATB.validate_harmony 0 (Pitch.new 0 10 4) (Pitch.new 0 7 4)
      (Pitch.new 0 4 4) (Pitch.new 0 0 3) = true :=
  ((claim_C3 0 (Pitch.new 0 10 4) (Pitch.new 0 7 4) (Pitch.new 0 4 4)
      (Pitch.new 0 0 3) (by decide) (by decide) (by decide) (by decide)
      (by decide) (by decide) (by decide) (by decide)).1).mpr (by decide)

/-- Claim C4: for a range-valid harmony containing its root with exactly
three distinct pitch classes and the bass on the root, legality holds iff
exactly one upper voice doubles the root and the remaining two upper voices
carry the third and the fifth above the root, in either assignment. -/
theorem claim_C4 (root : ℕ) (s a t b : Pitch)
    (hr : root < 12) (hs : s.pitch_class < 12) (ha : a.pitch_class < 12)
    (ht : t.pitch_class < 12) (hb : b.pitch_class < 12)
    (hrange : SATB.validate_voice_ranges s a t b = true)
    (hroot : s.pitch_class = root ∨ a.pitch_class = root ∨
      t.pitch_class = root ∨ b.pitch_class = root)
    (hcard : ({root, b.pitch_class, t.pitch_class, a.pitch_class,
      s.pitch_class} : Finset ℕ).card = 3)
    (hbass : b.pitch_class = root) :
    SATB.validate_harmony root s a t b = true ↔
      ((t.pitch_class = root ∧ ¬(a.pitch_class = root) ∧ ¬(s.pitch_class = root) ∧
          ((is_third root a.pitch_class ∧ is_fifth root s.pitch_class) ∨
            (is_third root s.pitch_class ∧ is_fifth root a.pitch_class))) ∨
        (a.pitch_class = root ∧ ¬(t.pitch_class = root) ∧ ¬(s.pitch_class = root) ∧
          ((is_third root t.pitch_class ∧ is_fifth root s.pitch_class) ∨
            (is_third root s.pitch_class ∧ is_fifth root t.pitch_class))) ∨
        (s.pitch_class = root ∧ ¬(t.pitch_class = root) ∧ ¬(a.pitch_class = root) ∧
          ((is_third root t.pitch_class ∧ is_fifth root a.pitch_class) ∨
            (is_third root a.pitch_class ∧ is_fifth root t.pitch_class)))) := by
  have hdv : distinct_voices root b.pitch_class t.pitch_class a.pitch_class
      s.pitch_class = 3 := by
    rw [distinct_voices_eq_card]
    exact hcard
  rw [validate_harmony_eq_of_dv3_root root s a t b hrange hroot hdv hbass,
    decide_eq_true_eq]
  constructor
  · rintro (⟨he, hcase⟩ | ⟨he, hcase⟩ | ⟨he, hcase⟩)
    · rcases hcase with ⟨h3, h5⟩ | ⟨h3, h5⟩
      · exact Or.inl ⟨he, is_third_ne h3, is_fifth_ne h5, Or.inl ⟨h3, h5⟩⟩
      · exact Or.inl ⟨he, is_fifth_ne h5, is_third_ne h3, Or.inr ⟨h3, h5⟩⟩
    · rcases hcase with ⟨h3, h5⟩ | ⟨h3, h5⟩
      · exact Or.inr (Or.inl ⟨he, is_third_ne h3, is_fifth_ne h5, Or.inl ⟨h3, h5⟩⟩)
      · exact Or.inr (Or.inl ⟨he, is_fifth_ne h5, is_third_ne h3, Or.inr ⟨h3, h5⟩⟩)
    · rcases hcase with ⟨h3, h5⟩ | ⟨h3, h5⟩
      · exact Or.inr (Or.inr ⟨he, is_third_ne h3, is_fifth_ne h5, Or.inl ⟨h3, h5⟩⟩)
      · exact Or.inr (Or.inr ⟨he, is_fifth_ne h5, is_third_ne h3, Or.inr ⟨h3, h5⟩⟩)
  · rintro (⟨he, hx, hy, hcase⟩ | ⟨he, hx, hy, hcase⟩ | ⟨he, hx, hy, hcase⟩)
    · exact Or.inl ⟨he, hcase⟩
    · exact Or.inr (Or.inl ⟨he, hcase⟩)
    · exact Or.inr (Or.inr ⟨he, hcase⟩)

/-- Witness for claim C4: a concrete root-position triad with root doubled
in bass and tenor, third in alto and fifth in soprano validates as legal. -/
theorem claim_C4_witness :
    SATB.validate_harmony 0 (Pitch.new 0 7 4) (Pitch.new 0 4 4)
      (Pitch.new 0 0 4) (Pitch.new 0 0 3) = true :=
  (claim_C4 0 (Pitch.new 0 7 4) (Pitch.new 0 4 4) (Pitch.new 0 0 4)
      (Pitch.new 0 0 3) (by decide) (by decide) (by decide) (by decide)
      (by decide) (by decide) (by decide) (by decide) (by decide)).mpr
    (by decide)

/-- Claim C5: for a range-valid harmony containing its root with exactly
two distinct pitch classes, legality holds iff every voice either equals
the root or is a third above it; consequently a two-class sonority made of
the root and a fifth above it only is rejected. -/
theorem claim_C5 (root : ℕ) (s a t b : Pitch)
    (hr : root < 12) (hs : s.pitch_class < 12) (ha : a.pitch_class < 12)
    (ht : t.pitch_class < 12) (hb : b.pitch_class < 12)
    (hrange : SATB.validate_voice_ranges s a t b = true)
    (hroot : s.pitch_class = root ∨ a.pitch_class = root ∨
      t.pitch_class = root ∨ b.pitch_class = root)
    (hcard : ({root, b.pitch_class, t.pitch_class, a.pitch_class,
      s.pitch_class} : Finset ℕ).card = 2) :
    (SATB.validate_harmony root s a t b = true ↔
      ((s.pitch_class = root ∨ is_third root s.pitch_class) ∧
        (a.pitch_class = root ∨ is_third root a.pitch_class) ∧
        (t.pitch_class = root ∨ is_third root t.pitch_class) ∧
        (b.pitch_class = root ∨ is_third root b.pitch_class))) ∧
    (((s.pitch_class = root ∨ is_fifth root s.pitch_class) ∧
        (a.pitch_class = root ∨ is_fifth root a.pitch_class) ∧
        (t.pitch_class = root ∨ is_fifth root t.pitch_class) ∧
        (b.pitch_class = root ∨ is_fifth root b.pitch_class)) →
      SATB.validate_harmony root s a t b = false) := by
  have hdv : distinct_voices root b.pitch_class t.pitch_class a.pitch_class
      s.pitch_class = 2 := by
    rw [distinct_voices_eq_card]
    exact hcard
  have hred := validate_harmony_eq_of_dv2 root s a t b hrange hroot hdv
  have hiff : SATB.validate_harmony root s a t b = true ↔
      ((s.pitch_class = root ∨ is_third root s.pitch_class) ∧
        (a.pitch_class = root ∨ is_third root a.pitch_class) ∧
        (t.pitch_class = root ∨ is_third root t.pitch_class) ∧
        (b.pitch_class = root ∨ is_third root b.pitch_class)) := by
    rw [hred]
    by_cases h : ((s.pitch_class = root ∨ is_third root s.pitch_class) ∧
        (a.pitch_class = root ∨ is_third root a.pitch_class) ∧
        (t.pitch_class = root ∨ is_third root t.pitch_class) ∧
        (b.pitch_class = root ∨ is_third root b.pitch_class))
    · rw [if_neg (not_not_intro h)]
      simp [h]
    · rw [if_pos h]
      simp [h]
  refine ⟨hiff, fun hall => ?_⟩
  have hne : ¬(b.pitch_class = root ∧ t.pitch_class = root ∧
      a.pitch_class = root ∧ s.pitch_class = root) := by
    rintro ⟨e1, e2, e3, e4⟩
    rw [e1, e2, e3, e4] at hcard
    have hone : ({root, root, root, root, root} : Finset ℕ) = {root} := by
      ext x
      simp
    rw [hone] at hcard
    simp at hcard
  cases hv : SATB.validate_harmony root s a t b
  · rfl
  · exfalso
    have hgood := hiff.mp hv
    have hv1 : ∀ x : ℕ, (x = root ∨ is_fifth root x) →
        (x = root ∨ is_third root x) → x = root := by
      intro x hx1 hx2
      rcases hx1 with h | h
      · exact h
      · rcases hx2 with h2 | h2
        · exact h2
        · exact absurd h2 (is_fifth_not_third h)
    exact hne ⟨hv1 _ hall.2.2.2 hgood.2.2.2, hv1 _ hall.2.2.1 hgood.2.2.1,
      hv1 _ hall.2.1 hgood.2.1, hv1 _ hall.1 hgood.1⟩

/-- Witness for claim C5: a concrete two-class sonority of root and third
validates as legal. -/
theorem claim_C5_witness :
    SATB.validate_harmony 0 (Pitch.new 0 4 4) (Pitch.new 0 4 4)
      (Pitch.new 0 0 4) (Pitch.new 0 4 3) = true :=
  ((claim_C5 0 (Pitch.new 0 4 4) (Pitch.new 0 4 4) (Pitch.new 0 0 4)
      (Pitch.new 0 4 3) (by decide) (by decide) (by decide) (by decide)
      (by decide) (by decide) (by decide) (by decide)).1).mpr (by decide)

/-- Claim C6: the sequential distinct-voice counter equals the cardinality
of the set of the root and the four voice pitch classes, and whenever that
count is not 2, 3 or 4 the harmony validator rejects. -/
theorem claim_C6 (root : ℕ) (s a t b : Pitch)
    (hr : root < 12) (hs : s.pitch_class < 12) (ha : a.pitch_class < 12)
    (ht : t.pitch_class < 12) (hb : b.pitch_class < 12) :
    distinct_voices root b.pitch_class t.pitch_class a.pitch_class
        s.pitch_class =
      ({root, b.pitch_class, t.pitch_class, a.pitch_class,
        s.pitch_class} : Finset ℕ).card ∧
    ((distinct_voices root b.pitch_class t.pitch_class a.pitch_class
          s.pitch_class ≠ 2 ∧
        distinct_voices root b.pitch_class t.pitch_class a.pitch_class
          s.pitch_class ≠ 3 ∧
        distinct_voices root b.pitch_class t.pitch_class a.pitch_class
          s.pitch_class ≠ 4) →
      SATB.validate_harmony root s a t b = false) := by
  refine ⟨distinct_voices_eq_card root b.pitch_class t.pitch_class
    a.pitch_class s.pitch_class, fun ⟨h2, h3, h4⟩ => ?_⟩
  unfold SATB.validate_harmony
  set n := distinct_voices root b.pitch_class t.pitch_class a.pitch_class
    s.pitch_class with hn
  split_ifs <;> first | rfl | omega

/-- Witness for claim C6: with all five pitch classes equal the counter is
1, matching the singleton cardinality, and validation rejects. -/
theorem claim_C6_witness :
    SATB.validate_harmony 0 (Pitch.new 0 0 4) (Pitch.new 0 0 4)
      (Pitch.new 0 0 4) (Pitch.new 0 0 3) = false :=
  (claim_C6 0 (Pitch.new 0 0 4) (Pitch.new 0 0 4) (Pitch.new 0 0 4)
      (Pitch.new 0 0 3) (by decide) (by decide) (by decide) (by decide)
      (by decide)).2 ⟨by decide, by decide, by decide⟩

/-- Claim C7: the validated constructor produces a harmony exactly when the
combined validation succeeds and constructs nothing exactly when it fails,
while the unchecked constructor always builds the record from its inputs. -/
theorem claim_C7 (root : ℕ) (s a t b : Pitch) :
    (SATB.new root s a t b).isSome = SATB.validate_harmony root s a t b ∧
    (SATB.validate_harmony root s a t b = true →
      SATB.new root s a t b = some (SATB.new_unchecked root s a t b)) ∧
    (SATB.validate_harmony root s a t b = false →
      SATB.new root s a t b = none) ∧
    SATB.new_unchecked root s a t b =
      ⟨s, a, t, b, root, insert s.pitch_class (insert a.pitch_class
        (insert t.pitch_class {b.pitch_class}))⟩ := by
  refine ⟨?_, fun h => ?_, fun h => ?_, rfl⟩
  · cases hv : SATB.validate_harmony root s a t b <;> simp [SATB.new, hv]
  · simp [SATB.new, h]
  · simp [SATB.new, h]

/-- Witness for claim C7: a concrete valid harmony is constructed by the
validated constructor. -/
theorem claim_C7_witness :
    SATB.new 0 (Pitch.new 0 7 4) (Pitch.new 0 4 4) (Pitch.new 0 0 4)
      (Pitch.new 0 0 3) =
      some (SATB.new_unchecked 0 (Pitch.new 0 7 4) (Pitch.new 0 4 4)
        (Pitch.new 0 0 4) (Pitch.new 0 0 3)) :=
  (claim_C7 0 (Pitch.new 0 7 4) (Pitch.new 0 4 4) (Pitch.new 0 0 4)
    (Pitch.new 0 0 3)).2.1 (by decide)

/-- Length of the flattening of a replicated list. -/
theorem flatten_replicate_length {α : Type} (d : ℕ) (l : List α) :
    (List.replicate d l).flatten.length = d * l.length := by
  induction d with
  | zero => simp
  | succ n ih =>
    rw [List.replicate_succ, List.flatten_cons, List.length_append, ih,
      Nat.succ_mul]
    omega

/-- Element lookup in the flattening of a replicated list. -/
theorem flatten_replicate_getElem {α : Type} (l : List α) (sf : ℕ)
    (hl : l.length = sf) (d k i : ℕ) (hk : k < d) (hi : i < sf) :
    (List.replicate d l).flatten[k * sf + i]? = l[i]? := by
  induction d generalizing k with
  | zero => exact absurd hk (by omega)
  | succ n ih =>
    rw [List.replicate_succ, List.flatten_cons]
    cases k with
    | zero =>
      rw [Nat.zero_mul, Nat.zero_add, List.getElem?_append, if_pos (by omega)]
    | succ m =>
      have harith : (m + 1) * sf + i = l.length + (m * sf + i) := by
        rw [hl]
        ring
      rw [harith, List.getElem?_append, if_neg (by omega)]
      have h2 : l.length + (m * sf + i) - l.length = m * sf + i := by omega
      rw [h2]
      exact ih m (by omega)

/-- Claim C8: for every harmony and parameters, the synthesizer emits
exactly duration times sample_freq samples, and the sample at position
k times sample_freq plus i is the sum of the four voice sinusoids at time
i divided by sample_freq. -/
theorem claim_C8 {α : Type} [DivisionRing α] (q : ℚ → α) (sinf : α → α)
    (pi : α) (h : SATB) (duration sample_freq : ℕ) :
    (SATB.sound_wave q sinf pi h duration sample_freq).length =
      duration * sample_freq ∧
    ∀ k i : ℕ, k < duration → i < sample_freq →
      (SATB.sound_wave q sinf pi h duration sample_freq)[k * sample_freq + i]? =
        some (sinf (q h.soprano.frequency * 2 * pi *
            ((i : α) / (sample_freq : α))) +
          sinf (q h.alto.frequency * 2 * pi * ((i : α) / (sample_freq : α))) +
          sinf (q h.tenor.frequency * 2 * pi * ((i : α) / (sample_freq : α))) +
          sinf (q h.bass.frequency * 2 * pi * ((i : α) / (sample_freq : α)))) := by
  constructor
  · rw [SATB.sound_wave, flatten_replicate_length]
    rw [List.length_map, List.length_range]
  · intro k i hk hi
    rw [SATB.sound_wave,
      flatten_replicate_getElem _ sample_freq
        (by rw [List.length_map, List.length_range]) duration k i hk hi,
      List.getElem?_map]
    have hrange : (List.range sample_freq)[i]? = some i := by
      simp [List.getElem?_range, hi]
    rw [hrange]
    rfl

/-- Witness for claim C8: one second at four samples per second on a fixed
four-pitch harmony, with the identity in place of the sine and 1 in place
of pi, yields 4 samples, and the sample at index 2 evaluates to the sum of
the four scaled frequencies. -/
theorem claim_C8_witness :
    (SATB.sound_wave (fun x => x) (fun x => x) 1
        (SATB.new_unchecked 0 (Pitch.new 1 7 4) (Pitch.new 2 4 4)
          (Pitch.new 3 0 4) (Pitch.new 4 0 3)) 1 4).length = 4 ∧
    (SATB.sound_wave (fun x => x) (fun x => x) 1
        (SATB.new_unchecked 0 (Pitch.new 1 7 4) (Pitch.new 2 4 4)
          (Pitch.new 3 0 4) (Pitch.new 4 0 3)) 1 4)[2]? = some 10 := by
  have h := claim_C8 (α := ℚ) (fun x => x) (fun x => x) 1
    (SATB.new_unchecked 0 (Pitch.new 1 7 4) (Pitch.new 2 4 4)
      (Pitch.new 3 0 4) (Pitch.new 4 0 3)) 1 4
  refine ⟨h.1.trans (by norm_num), ?_⟩
  have h2 := h.2 0 2 (by omega) (by omega)
  exact h2.trans (by norm_num [SATB.new_unchecked, Pitch.new])

end TwelveEt
